import Mathlib

/-!
# Verification of the ceda-di / eufar metadata product module

Shallow embedding of `src/python/src/ceda_di/metadata/product.py` (the
"ceda_di" lineage) and `src/src/eufar/metadata/product.py` (the "eufar"
lineage), the two variants of the `Properties` class, together with proofs
about the claims of the specification.

Modelling conventions:
* Python floats are modelled by `PFloat`: either `nan` or a finite rational
  value.  The Python comparison operators `<` and `>` on floats return
  `False` whenever one operand is NaN, which `pyLt` reproduces.  Infinities
  are not modelled; for the range checks performed here they behave like
  ordinary out-of-range finite values.
* Code that can raise a Python exception is embedded in `Except String`;
  total Python functions are embedded as total Lean functions.
* Python dicts that the code builds and serializes are modelled by the
  `PyVal` universe (None / float / string / list / tuple / dict); a dict is
  an association list in insertion order.  CPython's `set` has an
  unspecified iteration order; the embedding fixes the first-occurrence
  order (`dedupFirst`), which is adequate for the claims below since they
  only depend on membership and cardinality of the deduplicated set.
-/

/-- A Python float: NaN or a finite value (modelled as a rational). -/
inductive PFloat where
  | nan : PFloat
  | val : ℚ → PFloat
deriving DecidableEq, Repr

/-- Python `<` on floats: any comparison with NaN is `False`. -/
def pyLt : PFloat → PFloat → Bool
  | PFloat.val a, PFloat.val b => decide (a < b)
  | _, _ => false

/-- Python `>` on floats, as used by `if num > 90`: `a > b` iff `b < a`. -/
def pyGt (a b : PFloat) : Bool := pyLt b a

/-- Python `<=` on floats: `False` whenever one operand is NaN. -/
def pyLe : PFloat → PFloat → Bool
  | PFloat.val a, PFloat.val b => decide (a ≤ b)
  | _, _ => false

/-- `Properties.valid_lat` (ceda_di, product.py lines 60-69):
`if num < -90 or num > 90: return False` then `return True`. -/
def valid_lat (num : PFloat) : Bool :=
  if pyLt num (PFloat.val (-90)) || pyGt num (PFloat.val 90) then false else true

/-- `Properties.valid_lon` (ceda_di, product.py lines 71-80):
`if num < -180 or num > 180: return False` then `return True`. -/
def valid_lon (num : PFloat) : Bool :=
  if pyLt num (PFloat.val (-180)) || pyGt num (PFloat.val 180) then false else true

/-- Python `max(x :: xs)`: start from the first element and replace the
current best whenever a later item compares strictly greater. -/
def pyMaxFrom (x : PFloat) (xs : List PFloat) : PFloat :=
  xs.foldl (fun acc y => if pyLt acc y then y else acc) x

/-- Python `min(x :: xs)`: start from the first element and replace the
current best whenever a later item compares strictly smaller. -/
def pyMinFrom (x : PFloat) (xs : List PFloat) : PFloat :=
  xs.foldl (fun acc y => if pyLt y acc then y else acc) x

/-- `Properties._get_min_max` (ceda_di, product.py lines 151-169).
The emptiness guard runs BEFORE the filter; `max`/`min` on an empty
(filtered) list raise `ValueError`, embedded as `Except.error`. -/
def get_min_max (itemList : List PFloat)
    (filterFunc : Option (PFloat → Bool)) :
    Except String (Option PFloat × Option PFloat) :=
  if itemList.length < 1 then Except.ok (none, none)
  else
    let itemList' := match filterFunc with
      | some f => itemList.filter f
      | none => itemList
    match itemList' with
    | [] => Except.error "ValueError: max() arg is an empty sequence"
    | x :: xs => Except.ok (some (pyMinFrom x xs), some (pyMaxFrom x xs))

/-- `Properties._get_min_max` (eufar, product.py lines 101-114): no filter
argument, and the pair is returned HIGH first (`return (high, low)`). -/
def eufar_get_min_max (itemList : List PFloat) :
    Option PFloat × Option PFloat :=
  match itemList with
  | [] => (none, none)
  | x :: xs => (some (pyMaxFrom x xs), some (pyMinFrom x xs))

/-- Helper: a `PFloat` is a finite (non-NaN) value. -/
def isFinite : PFloat → Bool
  | PFloat.nan => false
  | PFloat.val _ => true

section ExtentLemmas

/-- On finite values `pyLt` is the rational strict order. -/
theorem pyLt_val (a b : ℚ) : pyLt (PFloat.val a) (PFloat.val b) = decide (a < b) := rfl

/-- `pyMaxFrom` over an embedded rational list is the rational `max` fold. -/
theorem pyMaxFrom_map_val (x : ℚ) (xs : List ℚ) :
    pyMaxFrom (PFloat.val x) (xs.map PFloat.val) = PFloat.val (xs.foldl max x) := by
  induction xs generalizing x with
  | nil => rfl
  | cons y ys ih =>
      simp only [List.map_cons, pyMaxFrom, List.foldl_cons] at *
      rw [show (if pyLt (PFloat.val x) (PFloat.val y) then PFloat.val y else PFloat.val x)
            = PFloat.val (max x y) by
          rcases le_or_lt y x with h | h
          · simp [pyLt, not_lt.mpr h, max_eq_left h]
          · simp [pyLt, h, max_eq_right h.le]]
      exact ih (max x y)

/-- `pyMinFrom` over an embedded rational list is the rational `min` fold. -/
theorem pyMinFrom_map_val (x : ℚ) (xs : List ℚ) :
    pyMinFrom (PFloat.val x) (xs.map PFloat.val) = PFloat.val (xs.foldl min x) := by
  induction xs generalizing x with
  | nil => rfl
  | cons y ys ih =>
      simp only [List.map_cons, pyMinFrom, List.foldl_cons] at *
      rw [show (if pyLt (PFloat.val y) (PFloat.val x) then PFloat.val y else PFloat.val x)
            = PFloat.val (min x y) by
          rcases le_or_lt x y with h | h
          · simp [pyLt, not_lt.mpr h, min_eq_left h]
          · simp [pyLt, h, min_eq_right h.le]]
      exact ih (min x y)

/-- The rational max fold yields an element of the list. -/
theorem foldl_max_mem (x : ℚ) (xs : List ℚ) : xs.foldl max x ∈ x :: xs := by
  induction xs generalizing x with
  | nil => simp
  | cons y ys ih =>
      simp only [List.foldl_cons]
      have h := ih (max x y)
      rcases List.mem_cons.mp h with h | h
      · rw [h]; rcases max_choice x y with hc | hc <;> rw [hc] <;> simp
      · simp [h]

/-- The rational max fold bounds every element of the list from above. -/
theorem foldl_max_le (x : ℚ) (xs : List ℚ) :
    ∀ y ∈ x :: xs, y ≤ xs.foldl max x := by
  induction xs generalizing x with
  | nil => intro y hy; simp at hy; simp [hy]
  | cons z zs ih =>
      intro y hy
      simp only [List.foldl_cons]
      rcases List.mem_cons.mp hy with h | h
      · subst h
        exact le_trans (le_max_left y z) (ih (max y z) _ (List.mem_cons_self _ _))
      · rcases List.mem_cons.mp h with h | h
        · subst h
          exact le_trans (le_max_right x y) (ih (max x y) _ (List.mem_cons_self _ _))
        · exact ih (max x z) _ (List.mem_cons.mpr (Or.inr h))

/-- The rational min fold yields an element of the list. -/
theorem foldl_min_mem (x : ℚ) (xs : List ℚ) : xs.foldl min x ∈ x :: xs := by
  induction xs generalizing x with
  | nil => simp
  | cons y ys ih =>
      simp only [List.foldl_cons]
      have h := ih (min x y)
      rcases List.mem_cons.mp h with h | h
      · rw [h]; rcases min_choice x y with hc | hc <;> rw [hc] <;> simp
      · simp [h]

/-- The rational min fold bounds every element of the list from below. -/
theorem foldl_min_le (x : ℚ) (xs : List ℚ) :
    ∀ y ∈ x :: xs, xs.foldl min x ≤ y := by
  induction xs generalizing x with
  | nil => intro y hy; simp at hy; simp [hy]
  | cons z zs ih =>
      intro y hy
      simp only [List.foldl_cons]
      rcases List.mem_cons.mp hy with h | h
      · subst h
        exact le_trans (ih (min y z) _ (List.mem_cons_self _ _)) (min_le_left y z)
      · rcases List.mem_cons.mp h with h | h
        · subst h
          exact le_trans (ih (min x y) _ (List.mem_cons_self _ _)) (min_le_right x y)
        · exact ih (min x z) _ (List.mem_cons.mpr (Or.inr h))

end ExtentLemmas

/-- C1: the emptiness guard of `_get_min_max` precedes the filter, so a
non-empty input all of whose values the filter rejects reaches
`max([])`, which raises `ValueError`.  This evaluates the embedded code
at the failing input `item_list = [200.0]`, `filter_func = valid_lat`,
contrasting it with the empty-input case the guard was written for. -/
theorem get_min_max_raises_on_all_invalid :
    get_min_max [] (some valid_lat) = Except.ok (none, none) ∧
    get_min_max [PFloat.val 200] (some valid_lat)
      = Except.error "ValueError: max() arg is an empty sequence" := by
  constructor <;> rfl

/-- C3 (counterexample): `valid_lat(NaN)` returns `True`, yet NaN does not
satisfy `-90 ≤ x ≤ 90` (both comparisons with NaN are false), so
"`is_valid_lat(x)` true iff `-90 ≤ x ≤ 90`, NaN classified invalid" fails
at `x = NaN`.  The guard `num < -90 or num > 90` is false for NaN, so the
negated-comparison form classifies NaN as VALID. -/
theorem valid_lat_nan_counterexample :
    valid_lat PFloat.nan = true ∧ valid_lon PFloat.nan = true ∧
    pyLe (PFloat.val (-90)) PFloat.nan = false ∧
    pyLe PFloat.nan (PFloat.val 90) = false := by
  refine ⟨rfl, rfl, rfl, rfl⟩

/-- C3 (amended): on every finite float the validators agree with the
specified range checks (`valid_lat` true iff `-90 ≤ x ≤ 90`, `valid_lon`
true iff `-180 ≤ x ≤ 180`); both are total functions; but NaN is
classified as VALID by both, because the range check is written in the
negated form `num < lo or num > hi` and NaN fails both strict
comparisons. -/
theorem valid_lat_lon_spec :
    (∀ q : ℚ, valid_lat (PFloat.val q) = true ↔ -90 ≤ q ∧ q ≤ 90) ∧
    (∀ q : ℚ, valid_lon (PFloat.val q) = true ↔ -180 ≤ q ∧ q ≤ 180) ∧
    valid_lat PFloat.nan = true ∧ valid_lon PFloat.nan = true := by
  refine ⟨?_, ?_, rfl, rfl⟩
  · intro q
    constructor
    · intro h
      by_contra hc
      rw [not_and_or, not_le, not_le] at hc
      rcases hc with hc | hc
      · simp [valid_lat, pyLt, pyGt, hc] at h
      · simp [valid_lat, pyLt, pyGt, hc] at h
    · intro ⟨h1, h2⟩
      simp [valid_lat, pyLt, pyGt, not_lt.mpr h1, not_lt.mpr h2]
  · intro q
    constructor
    · intro h
      by_contra hc
      rw [not_and_or, not_le, not_le] at hc
      rcases hc with hc | hc
      · simp [valid_lon, pyLt, pyGt, hc] at h
      · simp [valid_lon, pyLt, pyGt, hc] at h
    · intro ⟨h1, h2⟩
      simp [valid_lon, pyLt, pyGt, not_lt.mpr h1, not_lt.mpr h2]

/-- C6 (counterexample): the eufar variant of the extent reducer returns
the pair HIGH first: `_get_min_max([3, -1, 7])` yields `(7, -1)`, not the
claimed low-first `(-1, 7)`. -/
theorem eufar_extent_high_first :
    eufar_get_min_max [PFloat.val 3, PFloat.val (-1), PFloat.val 7]
      = (some (PFloat.val 7), some (PFloat.val (-1))) ∧
    eufar_get_min_max [PFloat.val 3, PFloat.val (-1), PFloat.val 7]
      ≠ (some (PFloat.val (-1)), some (PFloat.val 7)) := by
  constructor <;> decide

/-- C6 (amended): for every non-empty finite-valued sequence surviving the
filter, the ceda_di extent reducer returns `(min, max)` with the low value
first under the standard numeric ordering (so `extent([5]) = (5, 5)` and
`extent([3,-1,7])` with an all-passing filter is `(-1, 7)`); the eufar
variant of the same reducer instead returns the pair high first,
`(max, min)`, and its own consumer `_gen_bbox` unpacks it in that swapped
order, so each lineage applies its own convention consistently. -/
theorem extent_pair_order_spec :
    (∀ (l : List PFloat) (f : PFloat → Bool) (x : ℚ) (qs : List ℚ),
      l ≠ [] →
      l.filter f = (x :: qs).map PFloat.val →
      get_min_max l (some f)
        = Except.ok (some (PFloat.val (qs.foldl min x)), some (PFloat.val (qs.foldl max x))) ∧
      qs.foldl min x ≤ qs.foldl max x ∧
      qs.foldl min x ∈ x :: qs ∧ qs.foldl max x ∈ x :: qs ∧
      ∀ y ∈ x :: qs, qs.foldl min x ≤ y ∧ y ≤ qs.foldl max x) ∧
    (∀ (x : ℚ) (qs : List ℚ),
      eufar_get_min_max ((x :: qs).map PFloat.val)
        = (some (PFloat.val (qs.foldl max x)), some (PFloat.val (qs.foldl min x)))) := by
  constructor
  · intro l f x qs hne hfil
    have hlen : ¬ l.length < 1 := by
      cases l with
      | nil => exact absurd rfl hne
      | cons a as => simp
    have hres : get_min_max l (some f)
        = Except.ok (some (PFloat.val (qs.foldl min x)), some (PFloat.val (qs.foldl max x))) := by
      unfold get_min_max
      rw [if_neg hlen]
      simp only [hfil, List.map_cons]
      rw [pyMinFrom_map_val, pyMaxFrom_map_val]
    refine ⟨hres, ?_, foldl_min_mem x qs, foldl_max_mem x qs, ?_⟩
    · exact le_trans (foldl_min_le x qs _ (foldl_max_mem x qs))
        (le_refl _)
    · intro y hy
      exact ⟨foldl_min_le x qs y hy, foldl_max_le x qs y hy⟩
  · intro x qs
    simp only [eufar_get_min_max, List.map_cons]
    rw [pyMinFrom_map_val, pyMaxFrom_map_val]

/-- C6 (witness): the amended theorem applied at the spec's own examples:
`extent([3,-1,7], filter=valid_lat) = (-1, 7)` (all values pass),
`extent([5], filter=valid_lat) = (5, 5)`, and the eufar reducer on the
same list returns `(7, -1)`. -/
theorem extent_pair_order_spec_witness :
    get_min_max [PFloat.val 3, PFloat.val (-1), PFloat.val 7] (some valid_lat)
      = Except.ok (some (PFloat.val (-1)), some (PFloat.val 7)) ∧
    get_min_max [PFloat.val 5] (some valid_lat)
      = Except.ok (some (PFloat.val 5), some (PFloat.val 5)) ∧
    eufar_get_min_max [PFloat.val 3, PFloat.val (-1), PFloat.val 7]
      = (some (PFloat.val 7), some (PFloat.val (-1))) := by
  refine ⟨?_, ?_, ?_⟩
  · have h := (extent_pair_order_spec.1 [PFloat.val 3, PFloat.val (-1), PFloat.val 7]
      valid_lat 3 [-1, 7] (by decide) (by decide)).1
    rw [h]
    have h1 : (List.foldl min 3 [-1, 7] : ℚ) = -1 := by decide
    have h2 : (List.foldl max 3 [-1, 7] : ℚ) = 7 := by decide
    rw [h1, h2]
  · have h := (extent_pair_order_spec.1 [PFloat.val 5]
      valid_lat 5 [] (by decide) (by decide)).1
    exact h
  · have h := extent_pair_order_spec.2 3 [-1, 7]
    have h1 : (List.foldl min 3 [-1, 7] : ℚ) = -1 := by decide
    have h2 : (List.foldl max 3 [-1, 7] : ℚ) = 7 := by decide
    rw [h1, h2] at h
    exact h

/-- The `spatial` dict handed to the geometry helpers: keys `"lat"` and
`"lon"`, each a list of floats (the only keys the code reads). -/
structure SpatialDict where
  lat : List PFloat
  lon : List PFloat
deriving DecidableEq, Repr

/-- `Properties._gen_bbox` (ceda_di, product.py lines 82-102): extents of
the lon and lat channels (re-filtered through the validators), corners in
the order `[[lon_lo, lat_lo], [lon_lo, lat_hi], [lon_hi, lat_hi],
[lon_hi, lat_lo]]`, each corner in `(lon, lat)` order.  Only the
`"coordinates"` list is modelled here; the constant `"type": "MultiPoint"`
wrapper is reattached by `_to_geojson`'s embedding. -/
def gen_bbox (coordList : SpatialDict) :
    Except String (List (Option PFloat × Option PFloat)) := do
  let lonPair ← get_min_max coordList.lon (some valid_lon)
  let latPair ← get_min_max coordList.lat (some valid_lat)
  pure [(lonPair.1, latPair.1), (lonPair.1, latPair.2),
        (lonPair.2, latPair.2), (lonPair.2, latPair.1)]

/-- `Properties._gen_bbox` (eufar, product.py lines 55-75): no filtering,
extents come back HIGH first from `eufar_get_min_max`, and the corner
order is `[[lon_lo, lat_lo], [lon_lo, lat_hi], [lon_hi, lat_lo],
[lon_hi, lat_hi]]` — the third and fourth corners are swapped relative to
the ceda_di variant. -/
def eufar_gen_bbox (spatial : SpatialDict) :
    List (Option PFloat × Option PFloat) :=
  let lonPair := eufar_get_min_max spatial.lon
  let latPair := eufar_get_min_max spatial.lat
  [(lonPair.1, latPair.1), (lonPair.1, latPair.2),
   (lonPair.2, latPair.1), (lonPair.2, latPair.2)]

/-- Two corners of an axis-aligned box share an axis when they agree in
the lon or the lat coordinate. -/
def sharesAxis (p q : Option PFloat × Option PFloat) : Bool :=
  p.1 == q.1 || p.2 == q.2

/-- A 4-corner ring (implicitly closed) drawn from the corners of an
axis-aligned box is non-self-intersecting precisely when every edge,
including the closing edge, joins corners sharing an axis: an edge whose
endpoints differ in both coordinates is a diagonal of the box, and a
quadrilateral through all four corners that uses a diagonal is a
self-intersecting bow-tie. -/
def ringSimple : List (Option PFloat × Option PFloat) → Bool
  | [a, b, c, d] => sharesAxis a b && sharesAxis b c && sharesAxis c d && sharesAxis d a
  | _ => false

/-- C5 (counterexample): the eufar `_gen_bbox` on `lats = [0, 1]`,
`lons = [0, 1]` produces the ring `[(1,1), (1,0), (0,1), (0,0)]` — the
four corner combinations, but ordered so that the middle edge and the
closing edge are diagonals of the box: a self-intersecting bow-tie, not
the claimed non-self-intersecting ring. -/
theorem eufar_bbox_self_intersecting :
    eufar_gen_bbox ⟨[PFloat.val 0, PFloat.val 1], [PFloat.val 0, PFloat.val 1]⟩
      = [(some (PFloat.val 1), some (PFloat.val 1)),
         (some (PFloat.val 1), some (PFloat.val 0)),
         (some (PFloat.val 0), some (PFloat.val 1)),
         (some (PFloat.val 0), some (PFloat.val 0))] ∧
    ringSimple (eufar_gen_bbox
      ⟨[PFloat.val 0, PFloat.val 1], [PFloat.val 0, PFloat.val 1]⟩) = false := by
  constructor <;> decide

/-- C5 (amended): with at least one valid value in each channel, the
ceda_di `_gen_bbox` returns the four corner combinations of the computed
lon/lat extents as a 4-point ring in `(lon, lat)` order whose consecutive
corners (including the closing edge) always share an axis, i.e. a
non-self-intersecting ring; the eufar variant returns the same four
corner combinations of its own extent pair but in an order whose middle
and closing edges are box diagonals (a bow-tie) whenever the two extents
are distinct; in both variants a `(None, None)` extent propagates into
the corners instead of raising (shown for empty channels, the only case
in which the extent reducer returns `(None, None)`). -/
theorem gen_bbox_spec :
    (∀ sd : SpatialDict,
      sd.lon.filter valid_lon ≠ [] → sd.lat.filter valid_lat ≠ [] →
      ∃ lonLo lonHi latLo latHi : PFloat,
        get_min_max sd.lon (some valid_lon) = Except.ok (some lonLo, some lonHi) ∧
        get_min_max sd.lat (some valid_lat) = Except.ok (some latLo, some latHi) ∧
        gen_bbox sd = Except.ok
          [(some lonLo, some latLo), (some lonLo, some latHi),
           (some lonHi, some latHi), (some lonHi, some latLo)] ∧
        ringSimple
          [(some lonLo, some latLo), (some lonLo, some latHi),
           (some lonHi, some latHi), (some lonHi, some latLo)] = true) ∧
    (∀ sd : SpatialDict,
      eufar_gen_bbox sd
        = [((eufar_get_min_max sd.lon).1, (eufar_get_min_max sd.lat).1),
           ((eufar_get_min_max sd.lon).1, (eufar_get_min_max sd.lat).2),
           ((eufar_get_min_max sd.lon).2, (eufar_get_min_max sd.lat).1),
           ((eufar_get_min_max sd.lon).2, (eufar_get_min_max sd.lat).2)]) ∧
    gen_bbox ⟨[], []⟩
      = Except.ok [(none, none), (none, none), (none, none), (none, none)] ∧
    eufar_gen_bbox ⟨[], []⟩ = [(none, none), (none, none), (none, none), (none, none)] := by
  refine ⟨?_, fun sd => rfl, rfl, rfl⟩
  intro sd hlon hlat
  obtain ⟨y, ys, hy⟩ : ∃ y ys, sd.lon.filter valid_lon = y :: ys := by
    cases h : sd.lon.filter valid_lon with
    | nil => exact absurd h hlon
    | cons a as => exact ⟨a, as, rfl⟩
  obtain ⟨z, zs, hz⟩ : ∃ z zs, sd.lat.filter valid_lat = z :: zs := by
    cases h : sd.lat.filter valid_lat with
    | nil => exact absurd h hlat
    | cons a as => exact ⟨a, as, rfl⟩
  have hlonne : sd.lon ≠ [] := by
    intro h; rw [h] at hy; simp at hy
  have hlatne : sd.lat ≠ [] := by
    intro h; rw [h] at hz; simp at hz
  have h1 : get_min_max sd.lon (some valid_lon)
      = Except.ok (some (pyMinFrom y ys), some (pyMaxFrom y ys)) := by
    unfold get_min_max
    rw [if_neg (by cases hl : sd.lon with
      | nil => exact absurd hl hlonne
      | cons a as => simp)]
    simp only [hy]
  have h2 : get_min_max sd.lat (some valid_lat)
      = Except.ok (some (pyMinFrom z zs), some (pyMaxFrom z zs)) := by
    unfold get_min_max
    rw [if_neg (by cases hl : sd.lat with
      | nil => exact absurd hl hlatne
      | cons a as => simp)]
    simp only [hz]
  refine ⟨pyMinFrom y ys, pyMaxFrom y ys, pyMinFrom z zs, pyMaxFrom z zs,
    h1, h2, ?_, ?_⟩
  · unfold gen_bbox
    rw [h1, h2]
    rfl
  · simp [ringSimple, sharesAxis]

/-- C5 (witness): the amended theorem applied at `lats = [10, 20]`,
`lons = [30, 40]`, both channels fully valid. -/
theorem gen_bbox_spec_witness :
    (SpatialDict.mk [PFloat.val 10, PFloat.val 20]
      [PFloat.val 30, PFloat.val 40]).lon.filter valid_lon ≠ [] ∧
    (SpatialDict.mk [PFloat.val 10, PFloat.val 20]
      [PFloat.val 30, PFloat.val 40]).lat.filter valid_lat ≠ [] ∧
    (∃ lonLo lonHi latLo latHi : PFloat,
      get_min_max [PFloat.val 30, PFloat.val 40] (some valid_lon)
        = Except.ok (some lonLo, some lonHi) ∧
      get_min_max [PFloat.val 10, PFloat.val 20] (some valid_lat)
        = Except.ok (some latLo, some latHi) ∧
      gen_bbox (SpatialDict.mk [PFloat.val 10, PFloat.val 20]
          [PFloat.val 30, PFloat.val 40]) = Except.ok
        [(some lonLo, some latLo), (some lonLo, some latHi),
         (some lonHi, some latHi), (some lonHi, some latLo)] ∧
      ringSimple
        [(some lonLo, some latLo), (some lonLo, some latHi),
         (some lonHi, some latHi), (some lonHi, some latLo)] = true) :=
  ⟨by decide, by decide,
   gen_bbox_spec.1 (SpatialDict.mk [PFloat.val 10, PFloat.val 20]
     [PFloat.val 30, PFloat.val 40]) (by decide) (by decide)⟩

/-- Python list slicing `l[::step]` for `step ≥ 1`: the elements at
indices `0, step, 2*step, ...` in order. -/
def takeEvery (step : Nat) : List α → List α
  | [] => []
  | x :: xs => x :: takeEvery step (xs.drop (step - 1))
termination_by l => l.length
decreasing_by simp [List.length_drop]; omega

/-- `Properties._gen_coord_summary` (ceda_di, product.py lines 128-149):
`step = int(math.ceil(len(lons) / 30))` under true division, then
`lons[::step]`, `lats[::step]`, zipped into `(lon, lat)` pairs.  When the
track is empty the computed step is `0` and Python's slicing raises
`ValueError: slice step cannot be zero`.  Only the `"coordinates"` value
is modelled; the constant `"type": "LineString"` wrapper is reattached by
`_to_geojson`'s embedding. -/
def gen_coord_summary (coordList : SpatialDict) :
    Except String (List (PFloat × PFloat)) :=
  let lons := coordList.lon
  let lats := coordList.lat
  let step := (lons.length + 30 - 1) / 30
  if step = 0 then Except.error "ValueError: slice step cannot be zero"
  else Except.ok (List.zip (takeEvery step lons) (takeEvery step lats))

section SummaryLemmas

/-- Slicing yields a sublist (an order-preserving subsequence). -/
theorem takeEvery_sublist (step : Nat) (l : List α) :
    List.Sublist (takeEvery step l) l := by
  induction l using takeEvery.induct step with
  | case1 => rw [takeEvery]
  | case2 x xs ih =>
      rw [takeEvery]
      exact List.Sublist.cons₂ x (ih.trans (List.drop_sublist _ _))

/-- Length of a slice: the ceiling of `length / step`. -/
theorem takeEvery_length (step : Nat) (hs : 0 < step) (l : List α) :
    (takeEvery step l).length = (l.length + step - 1) / step := by
  induction l using takeEvery.induct step with
  | case1 =>
      rw [takeEvery]
      simp [Nat.div_eq_of_lt (show step - 1 < step by omega)]
  | case2 x xs ih =>
      rw [takeEvery]
      simp only [List.length_cons]
      rw [ih]
      simp only [List.length_drop]
      rcases Nat.lt_or_ge xs.length step with h | h
      · have e1 : xs.length - (step - 1) + step - 1 = step - 1 := by omega
        have e2 : xs.length + 1 + step - 1 = xs.length + step := by omega
        rw [e1, e2, Nat.div_eq_of_lt (by omega), Nat.add_div_right _ hs,
          Nat.div_eq_of_lt h]
      · have e1 : xs.length - (step - 1) + step - 1 = xs.length := by omega
        have e2 : xs.length + 1 + step - 1 = xs.length + step := by omega
        rw [e1, e2, Nat.add_div_right _ hs]

/-- `drop` distributes over `zip`. -/
theorem drop_zip_eq (k : Nat) : ∀ (a : List α) (b : List β),
    (a.zip b).drop k = (a.drop k).zip (b.drop k) := by
  induction k with
  | zero => intro a b; simp
  | succ n ih =>
    intro a b
    cases a with
    | nil => simp
    | cons x xs =>
      cases b with
      | nil => simp
      | cons y ys =>
        simp only [List.zip_cons_cons, List.drop_succ_cons]
        exact ih xs ys

/-- Slicing two equally long channels and zipping equals slicing the
zipped track. -/
theorem takeEvery_zip (step : Nat) (a : List α) :
    ∀ (b : List β), a.length = b.length →
    takeEvery step (a.zip b) = (takeEvery step a).zip (takeEvery step b) := by
  induction a using takeEvery.induct step with
  | case1 =>
    intro b hlen
    cases b with
    | nil => simp [takeEvery]
    | cons y ys => simp at hlen
  | case2 x xs ih =>
    intro b hlen
    cases b with
    | nil => simp at hlen
    | cons y ys =>
      simp only [List.zip_cons_cons]
      rw [takeEvery, takeEvery, takeEvery]
      simp only [List.zip_cons_cons]
      rw [drop_zip_eq]
      refine congrArg _ ?_
      refine ih _ ?_
      simp only [List.length_cons] at hlen
      simp [List.length_drop]; omega

end SummaryLemmas

/-- C7 (counterexample): on an empty track `_gen_coord_summary` computes
`step = ceil(0 / 30) = 0` and `lons[::0]` raises
`ValueError: slice step cannot be zero` — it does not return the empty
sequence the claim promises.  (Its only caller, `_to_geojson`, guards the
call with a non-emptiness test, so the raise is reachable only by direct
calls.) -/
theorem gen_coord_summary_empty_raises :
    gen_coord_summary ⟨[], []⟩
      = Except.error "ValueError: slice step cannot be zero" ∧
    gen_coord_summary ⟨[], []⟩ ≠ Except.ok [] := by
  refine ⟨rfl, ?_⟩
  intro h
  rw [show gen_coord_summary ⟨[], []⟩
    = Except.error "ValueError: slice step cannot be zero" from rfl] at h
  exact Except.noConfusion h

/-- C7 (amended): for every NON-empty coordinate track with equally long
channels, `_gen_coord_summary` computes `step = ceil(len(lons) / 30)` and
selects every `step`-th `(lon, lat)` sample starting at index 0, so the
output has length `ceil(len / step)`, has at most 30 points, is an
order-preserving subsequence of the zipped input (no reordering, no
interpolation), and starts with the first sample; on an EMPTY track the
computed step is 0 and the slice raises `ValueError` instead of
returning the empty sequence. -/
theorem gen_coord_summary_spec (sd : SpatialDict)
    (hlen : sd.lat.length = sd.lon.length) (hne : sd.lon ≠ []) :
    ∃ summ,
      gen_coord_summary sd = Except.ok summ ∧
      summ = takeEvery ((sd.lon.length + 29) / 30) (sd.lon.zip sd.lat) ∧
      summ.length
        = (sd.lon.length + ((sd.lon.length + 29) / 30) - 1) / ((sd.lon.length + 29) / 30) ∧
      summ.length ≤ 30 ∧
      List.Sublist summ (sd.lon.zip sd.lat) ∧
      summ.head? = (sd.lon.zip sd.lat).head? := by
  have hn1 : 1 ≤ sd.lon.length := by
    cases h : sd.lon with
    | nil => exact absurd h hne
    | cons a as => simp
  have hstep : (sd.lon.length + 30 - 1) / 30 ≠ 0 := by omega
  have hsame : (sd.lon.length + 30 - 1) / 30 = (sd.lon.length + 29) / 30 := by omega
  set step := (sd.lon.length + 29) / 30 with hstepdef
  have hspos : 0 < step := by omega
  have hz : takeEvery step (sd.lon.zip sd.lat)
      = (takeEvery step sd.lon).zip (takeEvery step sd.lat) :=
    takeEvery_zip step sd.lon sd.lat hlen.symm
  refine ⟨(takeEvery step sd.lon).zip (takeEvery step sd.lat), ?_, hz.symm, ?_, ?_, ?_, ?_⟩
  · unfold gen_coord_summary
    rw [if_neg hstep, hsame]
  · rw [← hz, takeEvery_length step hspos]
    have : (sd.lon.zip sd.lat).length = sd.lon.length := by
      simp [List.length_zip]; omega
    rw [this]
  · rw [← hz, takeEvery_length step hspos]
    have hzl : (sd.lon.zip sd.lat).length = sd.lon.length := by
      simp [List.length_zip]; omega
    rw [hzl]
    have h30 : sd.lon.length ≤ 30 * step := by omega
    have hlt : (sd.lon.length + step - 1) / step < 31 :=
      (Nat.div_lt_iff_lt_mul hspos).mpr (by omega)
    omega
  · rw [← hz]; exact takeEvery_sublist step _
  · rw [← hz]
    cases hl : sd.lon with
    | nil => exact absurd hl hne
    | cons x xs =>
      cases hl2 : sd.lat with
      | nil => rw [hl, hl2] at hlen; simp at hlen
      | cons y ys =>
        simp only [List.zip_cons_cons]
        rw [takeEvery]
        rfl

/-- C7 (witness): the amended theorem applied at the 2-sample track
`lats = [1, 2]`, `lons = [10, 20]` (step 1, every sample kept). -/
theorem gen_coord_summary_spec_witness :
    ∃ summ,
      gen_coord_summary ⟨[PFloat.val 1, PFloat.val 2],
        [PFloat.val 10, PFloat.val 20]⟩ = Except.ok summ ∧
      summ = takeEvery (((2 : Nat) + 29) / 30)
        (List.zip [PFloat.val 10, PFloat.val 20] [PFloat.val 1, PFloat.val 2]) ∧
      summ.length = ((2 : Nat) + (((2 : Nat) + 29) / 30) - 1) / (((2 : Nat) + 29) / 30) ∧
      summ.length ≤ 30 ∧
      List.Sublist summ
        (List.zip [PFloat.val 10, PFloat.val 20] [PFloat.val 1, PFloat.val 2]) ∧
      summ.head? = (List.zip [PFloat.val 10, PFloat.val 20]
        [PFloat.val 1, PFloat.val 2]).head? :=
  gen_coord_summary_spec
    ⟨[PFloat.val 1, PFloat.val 2], [PFloat.val 10, PFloat.val 20]⟩ rfl (by decide)

/-- The universe of Python values built and serialized by the metadata
record: `None`, floats, strings, lists, tuples, and dicts (association
lists in insertion order). -/
inductive PyVal where
  | pnone : PyVal
  | num : PFloat → PyVal
  | str : String → PyVal
  | list : List PyVal → PyVal
  | tuple : List PyVal → PyVal
  | dict : List (String × PyVal) → PyVal

/-- Python `set(...)` turned back into a list: deduplication keeping the
first occurrence of each element.  (CPython's set iteration order is
unspecified; the embedding fixes this deterministic order, which is
adequate here because the code's behaviour depends only on membership and
cardinality of the deduplicated set.) -/
def dedupAux [DecidableEq α] (seen : List α) : List α → List α
  | [] => []
  | x :: xs => if x ∈ seen then dedupAux seen xs else x :: dedupAux (x :: seen) xs

/-- First-occurrence deduplication, the embedding of `list(set(l))`. -/
def dedupFirst [DecidableEq α] (l : List α) : List α := dedupAux [] l

/-- Exact sign test `cross(o, a, b) ≤ 0` for the 2D cross product
`(a - o) × (b - o)`, computed on integer numerators and denominators
(denominators are positive, so the sign is the sign of the combined
numerator); this avoids rational normalization so that concrete
instances evaluate inside the kernel. -/
def crossLeZero (o a b : ℚ × ℚ) : Bool :=
  let n1 : ℤ := a.1.num * (o.1.den : ℤ) - o.1.num * (a.1.den : ℤ)
  let d1 : ℤ := (a.1.den : ℤ) * (o.1.den : ℤ)
  let n2 : ℤ := b.2.num * (o.2.den : ℤ) - o.2.num * (b.2.den : ℤ)
  let d2 : ℤ := (b.2.den : ℤ) * (o.2.den : ℤ)
  let n3 : ℤ := a.2.num * (o.2.den : ℤ) - o.2.num * (a.2.den : ℤ)
  let d3 : ℤ := (a.2.den : ℤ) * (o.2.den : ℤ)
  let n4 : ℤ := b.1.num * (o.1.den : ℤ) - o.1.num * (b.1.den : ℤ)
  let d4 : ℤ := (b.1.den : ℤ) * (o.1.den : ℤ)
  decide (n1 * n2 * d3 * d4 - n3 * n4 * d1 * d2 ≤ 0)

/-- Lexicographic comparison of 2D points. -/
def ptLeB (p q : ℚ × ℚ) : Bool :=
  decide (p.1 < q.1) || (p.1 == q.1 && decide (p.2 ≤ q.2))

/-- Insertion into a lexicographically sorted point list. -/
def insertPt (p : ℚ × ℚ) : List (ℚ × ℚ) → List (ℚ × ℚ)
  | [] => [p]
  | q :: rest => if ptLeB p q then p :: q :: rest else q :: insertPt p rest

/-- Lexicographic insertion sort of a point list. -/
def sortPts (l : List (ℚ × ℚ)) : List (ℚ × ℚ) := l.foldr insertPt []

/-- Pop stack entries that do not make a strict turn with the new point
(the stack head is the most recently added hull point). -/
def popTurn (p : ℚ × ℚ) : List (ℚ × ℚ) → List (ℚ × ℚ)
  | a :: b :: rest => if crossLeZero b a p then popTurn p (b :: rest) else a :: b :: rest
  | l => l

/-- One half (lower or upper) of the monotone-chain hull; the result is
in reverse traversal order. -/
def halfHull (pts : List (ℚ × ℚ)) : List (ℚ × ℚ) :=
  pts.foldl (fun st p => p :: popTurn p st) []

/-- Modelled from the spec: the convex-hull routine used by `_gen_hull`
(`pyhull.convex_hull.qconvex`) is external to this repository and the
spec treats it as a black box whose contract is: "input is an unordered
2D point set of size ≥ 3; output is the ordered hull boundary ring with
no repeated interior points".  Embedded as Andrew's monotone-chain
convex hull (a mature planar hull algorithm, per the spec's design
note), with exact rational sign tests. -/
def qconvexHull (pts : List (ℚ × ℚ)) : List (ℚ × ℚ) :=
  let s := sortPts pts
  match s with
  | [] => []
  | [p] => [p]
  | [p, q] => [p, q]
  | _ =>
    let lower := (halfHull s).reverse
    let upper := (halfHull s.reverse).reverse
    lower.dropLast ++ upper.dropLast

/-- Render a `(lon, lat)` pair as the Python tuple the code stores. -/
def pairTuple (p : PFloat × PFloat) : PyVal :=
  PyVal.tuple [PyVal.num p.1, PyVal.num p.2]

/-- Render an optional float (`None` propagates). -/
def optNum : Option PFloat → PyVal
  | none => PyVal.pnone
  | some x => PyVal.num x

/-- `Properties._gen_hull` (eufar, product.py lines 77-99; identical in
ceda_di lines 104-126, where it is dead code): run the hull routine on
the deduplicated coordinate list and keep the points that parse as
finite numbers, skipping the rest with a logged warning; the result is a
`"Polygon"` dict whose `"coordinates"` are `(lon, lat)` tuples. -/
def eufar_gen_hull (coordList : List (PFloat × PFloat)) : PyVal :=
  let finitePts := coordList.filterMap (fun p =>
    match p with
    | (PFloat.val a, PFloat.val b) => some (a, b)
    | _ => none)
  PyVal.dict [("type", PyVal.str "Polygon"),
    ("coordinates", PyVal.list ((qconvexHull finitePts).map
      (fun p => PyVal.tuple [PyVal.num (PFloat.val p.1), PyVal.num (PFloat.val p.2)])))]

/-- The eufar `_gen_bbox` result as the `"MultiPoint"` dict the code
builds (corners are `[lon, lat]` lists after JSON-style rendering). -/
def eufar_bbox_val (spatial : SpatialDict) : PyVal :=
  PyVal.dict [("type", PyVal.str "MultiPoint"),
    ("coordinates", PyVal.list ((eufar_gen_bbox spatial).map
      (fun c => PyVal.list [optNum c.1, optNum c.2])))]

/-- `Properties._to_geojson` (eufar, product.py lines 137-163): when both
channels are non-empty, deduplicate the `(lon, lat)` pairs of
`zip(lats, lons)` into a set, always emit it under `"coordinates"`, and
only when the deduplicated set has more than 3 points additionally
attach `"hull"` (from the deduplicated list) and `"bbox"` (from the
original channels); otherwise return `None`. -/
def eufar_to_geojson (spatial : SpatialDict) : Option PyVal :=
  if spatial.lat.length > 0 ∧ spatial.lon.length > 0 then
    let coordList := dedupFirst ((spatial.lat.zip spatial.lon).map (fun p => (p.2, p.1)))
    let geomEntries :=
      if coordList.length > 3 then
        [("coordinates", PyVal.list (coordList.map pairTuple)),
         ("hull", eufar_gen_hull coordList),
         ("bbox", eufar_bbox_val spatial)]
      else [("coordinates", PyVal.list (coordList.map pairTuple))]
    some (PyVal.dict [("geometries", PyVal.dict geomEntries)])
  else none

/-- The ceda_di `_gen_bbox` result as the `"MultiPoint"` dict. -/
def bbox_val (corners : List (Option PFloat × Option PFloat)) : PyVal :=
  PyVal.dict [("type", PyVal.str "MultiPoint"),
    ("coordinates", PyVal.list (corners.map
      (fun c => PyVal.list [optNum c.1, optNum c.2])))]

/-- The ceda_di `_gen_coord_summary` result as the `"LineString"` dict;
`zip` produces a list of Python TUPLES. -/
def summary_val (pairs : List (PFloat × PFloat)) : PyVal :=
  PyVal.dict [("type", PyVal.str "LineString"),
    ("coordinates", PyVal.list (pairs.map pairTuple))]

/-- `Properties._to_geojson` (ceda_di, product.py lines 192-211): when
both channels are non-empty, emit `"bbox"` and `"summary"` (this variant
computes no deduplicated set and no hull); otherwise return `None`.
Errors from the helpers propagate. -/
def to_geojson (spatial : SpatialDict) : Except String (Option PyVal) :=
  if spatial.lat.length > 0 ∧ spatial.lon.length > 0 then do
    let corners ← gen_bbox spatial
    let summ ← gen_coord_summary spatial
    pure (some (PyVal.dict [("geometries",
      PyVal.dict [("bbox", bbox_val corners), ("summary", summary_val summ)])]))
  else pure none

/-- The ceda_di spatial-normalization pipeline of `__init__` (product.py
lines 43-47): filter each channel independently through its validator,
then hand the filtered dict to `_to_geojson`. -/
def ceda_normalize (lats lons : List PFloat) : Except String (Option PyVal) :=
  to_geojson ⟨lats.filter valid_lat, lons.filter valid_lon⟩

/-- Python `dict.get`-style lookup in an association-list dict. -/
def assocLookup : List (String × PyVal) → String → Option PyVal
  | [], _ => none
  | (k, v) :: rest, key => if k == key then some v else assocLookup rest key

/-- Key lookup on a `PyVal` dict. -/
def pyGet (v : PyVal) (k : String) : Option PyVal :=
  match v with
  | PyVal.dict l => assocLookup l k
  | _ => none

/-- The value of a successful, non-null normalization result. -/
def okSomeVal : Except String (Option PyVal) → Option PyVal
  | Except.ok (some v) => some v
  | _ => none

/-- The named geometry inside a spatial block. -/
def geomOf (v : Option PyVal) (k : String) : Option PyVal :=
  match v with
  | some b =>
    match pyGet b "geometries" with
    | some g => pyGet g k
    | none => none
  | none => none

/-- Length of a geometry's `"coordinates"` list. -/
def coordLen (v : Option PyVal) : Nat :=
  match v with
  | some g =>
    match pyGet g "coordinates" with
    | some (PyVal.list l) => l.length
    | _ => 0
  | _ => 0

section NormalizeLemmas

/-- Filtering is idempotent. -/
theorem filter_idem (p : α → Bool) (l : List α) :
    (l.filter p).filter p = l.filter p := by
  induction l with
  | nil => rfl
  | cons x xs ih =>
    by_cases h : p x
    · simp [List.filter_cons, h, ih]
    · simp [List.filter_cons, h, ih]

/-- `_get_min_max` succeeds whenever the filtered list is non-empty. -/
theorem get_min_max_filter_cons (l : List PFloat) (f : PFloat → Bool)
    (y : PFloat) (ys : List PFloat) (h : l.filter f = y :: ys) :
    get_min_max l (some f)
      = Except.ok (some (pyMinFrom y ys), some (pyMaxFrom y ys)) := by
  have hne : l ≠ [] := by
    intro hl; rw [hl] at h; simp at h
  unfold get_min_max
  rw [if_neg (by cases l with
    | nil => exact absurd rfl hne
    | cons a as => simp)]
  simp only [h]

/-- The full shape of the ceda_di normalization result: `ok none` when a
filtered channel is empty, otherwise `ok` of a spatial block holding
exactly a `"bbox"` and a `"summary"` geometry. -/
theorem ceda_normalize_shape (lats lons : List PFloat) :
    (lats.filter valid_lat = [] ∨ lons.filter valid_lon = [] →
      ceda_normalize lats lons = Except.ok none) ∧
    (∀ (y : PFloat) (ys : List PFloat) (z : PFloat) (zs : List PFloat),
      lats.filter valid_lat = y :: ys →
      lons.filter valid_lon = z :: zs →
      ∃ corners summ,
        gen_bbox ⟨y :: ys, z :: zs⟩ = Except.ok corners ∧
        gen_coord_summary ⟨y :: ys, z :: zs⟩ = Except.ok summ ∧
        ceda_normalize lats lons = Except.ok (some (PyVal.dict [("geometries",
          PyVal.dict [("bbox", bbox_val corners),
                      ("summary", summary_val summ)])]))) := by
  constructor
  · intro h
    unfold ceda_normalize to_geojson
    rw [if_neg]
    · rfl
    · intro hc
      rcases hc with ⟨h1, h2⟩
      rcases h with h | h
      · rw [h] at h1; simp at h1
      · rw [h] at h2; simp at h2
  · intro y ys z zs hy hz
    have hlon : (z :: zs).filter valid_lon = z :: zs := by
      rw [← hz, filter_idem]
    have hlat : (y :: ys).filter valid_lat = y :: ys := by
      rw [← hy, filter_idem]
    have hbb : gen_bbox ⟨y :: ys, z :: zs⟩ = Except.ok
        [(some (pyMinFrom z zs), some (pyMinFrom y ys)),
         (some (pyMinFrom z zs), some (pyMaxFrom y ys)),
         (some (pyMaxFrom z zs), some (pyMaxFrom y ys)),
         (some (pyMaxFrom z zs), some (pyMinFrom y ys))] := by
      unfold gen_bbox
      rw [get_min_max_filter_cons _ _ _ _ hlon, get_min_max_filter_cons _ _ _ _ hlat]
      rfl
    have hsm : gen_coord_summary ⟨y :: ys, z :: zs⟩ = Except.ok
        (List.zip (takeEvery (((z :: zs).length + 30 - 1) / 30) (z :: zs))
                  (takeEvery (((z :: zs).length + 30 - 1) / 30) (y :: ys))) := by
      unfold gen_coord_summary
      rw [if_neg (by simp only [List.length_cons]; omega)]
    refine ⟨_, _, hbb, hsm, ?_⟩
    unfold ceda_normalize to_geojson
    rw [hy, hz, if_pos (by constructor <;> simp)]
    rw [hbb, hsm]
    rfl

end NormalizeLemmas

/-- C8 (counterexample): `lats = [100, 50]`, `lons = [10, 200]` has NO
mutually valid `(lat, lon)` pair — index 0 fails the latitude check,
index 1 the longitude check — yet because `__init__` filters the two
channels INDEPENDENTLY (to `[50]` and `[10]`), `_to_geojson` receives two
non-empty channels and emits a spatial block instead of the claimed
`None`. -/
theorem ceda_normalize_mutually_invalid_block :
    ([PFloat.val 100, PFloat.val 50].zip [PFloat.val 10, PFloat.val 200]).filter
      (fun p => valid_lat p.1 && valid_lon p.2) = [] ∧
    (okSomeVal (ceda_normalize [PFloat.val 100, PFloat.val 50]
      [PFloat.val 10, PFloat.val 200])).isSome = true := by
  constructor
  · decide
  · obtain ⟨c, s, _, _, h⟩ := (ceda_normalize_shape [PFloat.val 100, PFloat.val 50]
      [PFloat.val 10, PFloat.val 200]).2 (PFloat.val 50) [] (PFloat.val 10) []
      (by decide) (by decide)
    rw [h]
    rfl

/-- C8 (amended): the ceda_di normalizer returns the null spatial block
exactly when one of the PER-CHANNEL filtered lists is empty (in
particular for empty inputs), and it never raises; the eufar normalizer
(which validates nothing) returns null exactly when one raw channel is
empty.  Because ceda_di filters latitudes and longitudes independently
rather than as pairs, an input whose mutually valid pairs are empty can
still emit a block (see the counterexample). -/
theorem normalize_null_iff :
    (∀ lats lons : List PFloat,
      ceda_normalize lats lons = Except.ok none ↔
        lats.filter valid_lat = [] ∨ lons.filter valid_lon = []) ∧
    (∀ lats lons : List PFloat, ∃ v, ceda_normalize lats lons = Except.ok v) ∧
    (∀ sd : SpatialDict, eufar_to_geojson sd = none ↔ sd.lat = [] ∨ sd.lon = []) ∧
    ceda_normalize [] [] = Except.ok none ∧
    eufar_to_geojson ⟨[], []⟩ = none := by
  have hmain : ∀ lats lons : List PFloat,
      (ceda_normalize lats lons = Except.ok none ↔
        lats.filter valid_lat = [] ∨ lons.filter valid_lon = []) ∧
      ∃ v, ceda_normalize lats lons = Except.ok v := by
    intro lats lons
    by_cases hy : lats.filter valid_lat = []
    · have h := (ceda_normalize_shape lats lons).1 (Or.inl hy)
      exact ⟨⟨fun _ => Or.inl hy, fun _ => h⟩, none, h⟩
    · by_cases hz : lons.filter valid_lon = []
      · have h := (ceda_normalize_shape lats lons).1 (Or.inr hz)
        exact ⟨⟨fun _ => Or.inr hz, fun _ => h⟩, none, h⟩
      · obtain ⟨y, ys, hy'⟩ : ∃ y ys, lats.filter valid_lat = y :: ys := by
          cases h : lats.filter valid_lat with
          | nil => exact absurd h hy
          | cons a as => exact ⟨a, as, rfl⟩
        obtain ⟨z, zs, hz'⟩ : ∃ z zs, lons.filter valid_lon = z :: zs := by
          cases h : lons.filter valid_lon with
          | nil => exact absurd h hz
          | cons a as => exact ⟨a, as, rfl⟩
        obtain ⟨c, s, _, _, h⟩ := (ceda_normalize_shape lats lons).2 y ys z zs hy' hz'
        refine ⟨⟨fun hc => ?_, fun hc => absurd hc (by simp [hy', hz'])⟩, _, h⟩
        rw [h] at hc
        exact Option.noConfusion (Except.ok.inj hc)
  refine ⟨fun lats lons => (hmain lats lons).1, fun lats lons => (hmain lats lons).2,
    ?_, (ceda_normalize_shape [] []).1 (Or.inl rfl), rfl⟩
  intro sd
  by_cases hg : sd.lat.length > 0 ∧ sd.lon.length > 0
  · constructor
    · intro hc
      rw [eufar_to_geojson, if_pos hg] at hc
      exact Option.noConfusion hc
    · intro hc
      rcases hc with hc | hc <;> rw [hc] at hg <;> simp at hg
  · constructor
    · intro _
      rw [not_and_or] at hg
      rcases hg with hg | hg
      · exact Or.inl (by simpa using List.eq_nil_of_length_eq_zero (by omega))
      · exact Or.inr (by simpa using List.eq_nil_of_length_eq_zero (by omega))
    · intro _
      rw [eufar_to_geojson, if_neg hg]

/-- The spec's scenario input: 4 distinct valid points, the unit square
`(lon, lat) ∈ {(0,0), (1,0), (0,1), (1,1)}`. -/
def fourPoint : SpatialDict :=
  ⟨[PFloat.val 0, PFloat.val 0, PFloat.val 1, PFloat.val 1],
   [PFloat.val 0, PFloat.val 1, PFloat.val 0, PFloat.val 1]⟩

/-- Unfolding of the eufar `_to_geojson` on non-empty channels. -/
theorem eufar_to_geojson_pos (sd : SpatialDict)
    (h1 : 0 < sd.lat.length) (h2 : 0 < sd.lon.length) :
    eufar_to_geojson sd =
      some (PyVal.dict [("geometries", PyVal.dict
        (if (dedupFirst ((sd.lat.zip sd.lon).map (fun p => (p.2, p.1)))).length > 3 then
          [("coordinates", PyVal.list
             ((dedupFirst ((sd.lat.zip sd.lon).map (fun p => (p.2, p.1)))).map pairTuple)),
           ("hull", eufar_gen_hull (dedupFirst ((sd.lat.zip sd.lon).map (fun p => (p.2, p.1))))),
           ("bbox", eufar_bbox_val sd)]
         else
          [("coordinates", PyVal.list
             ((dedupFirst ((sd.lat.zip sd.lon).map (fun p => (p.2, p.1)))).map pairTuple))]))]) := by
  rw [eufar_to_geojson, if_pos ⟨h1, h2⟩]

/-- C2 (counterexample): on the 4 distinct valid points of `fourPoint`
(deduplicated set of size 4 > 3) the ceda_di `_to_geojson` — cited by the
claim alongside the eufar one — emits a spatial block containing NO
`"hull"` and NO deduplicated `"coordinates"` set at all (it carries only
`"bbox"` and `"summary"`), falsifying both the "always include the
deduplicated coordinate set" and the "attach the convex hull ... when
more than 3 points" parts for that variant. -/
theorem ceda_geojson_no_hull :
    (dedupFirst ((fourPoint.lat.zip fourPoint.lon).map (fun p => (p.2, p.1)))).length = 4 ∧
    (okSomeVal (ceda_normalize fourPoint.lat fourPoint.lon)).isSome = true ∧
    geomOf (okSomeVal (ceda_normalize fourPoint.lat fourPoint.lon)) "hull" = none ∧
    geomOf (okSomeVal (ceda_normalize fourPoint.lat fourPoint.lon)) "coordinates" = none ∧
    (geomOf (okSomeVal (ceda_normalize fourPoint.lat fourPoint.lon)) "bbox").isSome = true := by
  obtain ⟨c, s, _, _, h⟩ := (ceda_normalize_shape fourPoint.lat fourPoint.lon).2
    (PFloat.val 0) [PFloat.val 0, PFloat.val 1, PFloat.val 1]
    (PFloat.val 0) [PFloat.val 1, PFloat.val 0, PFloat.val 1]
    (by decide) (by decide)
  refine ⟨by decide, ?_, ?_, ?_, ?_⟩ <;> rw [h] <;> rfl

/-- C2 (amended): the eufar `_to_geojson` behaves as claimed: for every
non-empty valid input it always emits the deduplicated `(lon, lat)` set
under `"coordinates"`, and attaches `"hull"` and `"bbox"` exactly when
the deduplicated set has more than 3 points; on the concrete 4-point
scenario `fourPoint` both are present, the hull ring has `4 ≥ 3`
vertices and the bbox ring exactly 4.  The ceda_di variant of
`_to_geojson`, also cited by the claim, does none of this: for every
non-empty filtered input it unconditionally emits exactly `"bbox"` and
`"summary"`, never a deduplicated set or hull. -/
theorem spatial_block_contents_spec :
    (∀ sd : SpatialDict,
      sd.lat ≠ [] → sd.lon ≠ [] →
      (∀ v ∈ sd.lat, isFinite v = true ∧ valid_lat v = true) →
      (∀ v ∈ sd.lon, isFinite v = true ∧ valid_lon v = true) →
      ∃ rest,
        eufar_to_geojson sd = some (PyVal.dict [("geometries", PyVal.dict
          (("coordinates", PyVal.list
            ((dedupFirst ((sd.lat.zip sd.lon).map (fun p => (p.2, p.1)))).map pairTuple))
            :: rest))]) ∧
        ((dedupFirst ((sd.lat.zip sd.lon).map (fun p => (p.2, p.1)))).length > 3 →
          rest = [("hull", eufar_gen_hull
                    (dedupFirst ((sd.lat.zip sd.lon).map (fun p => (p.2, p.1))))),
                  ("bbox", eufar_bbox_val sd)]) ∧
        ((dedupFirst ((sd.lat.zip sd.lon).map (fun p => (p.2, p.1)))).length ≤ 3 →
          rest = [])) ∧
    (∀ lats lons : List PFloat, ∀ (y z : PFloat) (ys zs : List PFloat),
      lats.filter valid_lat = y :: ys →
      lons.filter valid_lon = z :: zs →
      geomOf (okSomeVal (ceda_normalize lats lons)) "hull" = none ∧
      geomOf (okSomeVal (ceda_normalize lats lons)) "coordinates" = none ∧
      (geomOf (okSomeVal (ceda_normalize lats lons)) "bbox").isSome = true ∧
      (geomOf (okSomeVal (ceda_normalize lats lons)) "summary").isSome = true) ∧
    (dedupFirst ((fourPoint.lat.zip fourPoint.lon).map (fun p => (p.2, p.1)))).length = 4 ∧
    (geomOf (eufar_to_geojson fourPoint) "hull").isSome = true ∧
    (geomOf (eufar_to_geojson fourPoint) "bbox").isSome = true ∧
    3 ≤ coordLen (geomOf (eufar_to_geojson fourPoint) "hull") ∧
    coordLen (geomOf (eufar_to_geojson fourPoint) "bbox") = 4 := by
  refine ⟨?_, ?_, by decide, by decide, by decide, by decide, by decide⟩
  · intro sd h1 h2 _ _
    rw [eufar_to_geojson_pos sd (List.length_pos.mpr h1) (List.length_pos.mpr h2)]
    by_cases hlen : (dedupFirst ((sd.lat.zip sd.lon).map (fun p => (p.2, p.1)))).length > 3
    · rw [if_pos hlen]
      exact ⟨_, rfl, fun _ => rfl, fun hc => absurd hlen (by omega)⟩
    · rw [if_neg hlen]
      exact ⟨[], rfl, fun hc => absurd hc hlen, fun _ => rfl⟩
  · intro lats lons y z ys zs hy hz
    obtain ⟨c, s, _, _, h⟩ := (ceda_normalize_shape lats lons).2 y ys z zs hy hz
    refine ⟨?_, ?_, ?_, ?_⟩ <;> rw [h] <;> rfl

/-- C2 (witness): the amended theorem's universal parts applied at
concrete inputs — the eufar part at the 4-point scenario `fourPoint`,
the ceda_di part at the fully valid 2-sample input `lats = [0, 1]`,
`lons = [2, 3]`. -/
theorem spatial_block_contents_spec_witness :
    (∃ rest,
        eufar_to_geojson fourPoint = some (PyVal.dict [("geometries", PyVal.dict
          (("coordinates", PyVal.list
            ((dedupFirst ((fourPoint.lat.zip fourPoint.lon).map (fun p => (p.2, p.1)))).map
              pairTuple)) :: rest))]) ∧
        ((dedupFirst ((fourPoint.lat.zip fourPoint.lon).map (fun p => (p.2, p.1)))).length > 3 →
          rest = [("hull", eufar_gen_hull
                    (dedupFirst ((fourPoint.lat.zip fourPoint.lon).map (fun p => (p.2, p.1))))),
                  ("bbox", eufar_bbox_val fourPoint)]) ∧
        ((dedupFirst ((fourPoint.lat.zip fourPoint.lon).map (fun p => (p.2, p.1)))).length ≤ 3 →
          rest = [])) ∧
    (geomOf (okSomeVal (ceda_normalize [PFloat.val 0, PFloat.val 1]
        [PFloat.val 2, PFloat.val 3])) "hull" = none ∧
      geomOf (okSomeVal (ceda_normalize [PFloat.val 0, PFloat.val 1]
        [PFloat.val 2, PFloat.val 3])) "coordinates" = none ∧
      (geomOf (okSomeVal (ceda_normalize [PFloat.val 0, PFloat.val 1]
        [PFloat.val 2, PFloat.val 3])) "bbox").isSome = true ∧
      (geomOf (okSomeVal (ceda_normalize [PFloat.val 0, PFloat.val 1]
        [PFloat.val 2, PFloat.val 3])) "summary").isSome = true) :=
  ⟨spatial_block_contents_spec.1 fourPoint (by decide) (by decide) (by decide) (by decide),
   spatial_block_contents_spec.2.1 [PFloat.val 0, PFloat.val 1] [PFloat.val 2, PFloat.val 3]
     (PFloat.val 0) (PFloat.val 2) [PFloat.val 1] [PFloat.val 3] (by decide) (by decide)⟩

/-- The `filesystem` dict handed to the constructor: the code touches
only its `"path"` entry (product.py line 51). -/
structure FsDict where
  path : String
deriving DecidableEq, Repr

/-- Modelled from the spec: `hashlib.sha1(path).hexdigest()` is an
external library primitive; the spec requires only a deterministic
"stable hash of the path string".  Embedded as a deterministic rolling
hash rendered in hexadecimal digits. -/
def sha1Hex (s : String) : String :=
  String.mk (Nat.toDigits 16
    (s.foldl (fun acc c => (acc * 31 + c.toNat) % 4294967296) 7))

/-- The constructed ceda_di `Properties` object: its attribute fields and
the `self.properties` dict assembled at product.py lines 50-58. -/
structure CedaProps where
  filesystem : Option FsDict
  temporal : Option PyVal
  data_format : Option PyVal
  parameters : Option (List PyVal)
  spatial : Option PyVal
  misc : List (String × PyVal)
  properties : PyVal

/-- A nullable group rendered into the properties dict. -/
def optVal : Option PyVal → PyVal
  | none => PyVal.pnone
  | some v => v

/-- The filesystem group rendered into the properties dict. -/
def fsVal : Option FsDict → PyVal
  | none => PyVal.pnone
  | some f => PyVal.dict [("path", PyVal.str f.path)]

/-- The parameters group rendered into the properties dict. -/
def paramsVal : Option (List PyVal) → PyVal
  | none => PyVal.pnone
  | some l => PyVal.list l

/-- `Properties.__init__` (ceda_di, product.py lines 17-58).  The
`parameters` argument is modelled as the already-flattened list of
`p.get()` item lists.  The result carries the constructed object
together with the FINAL contents of the caller's spatial dict (`none`
when none was passed): lines 45-46 overwrite the caller-supplied dict's
`"lat"`/`"lon"` entries in place with the filtered lists BEFORE line 47
rebinds `self.spatial` to the geojson block.  Line 51 unconditionally
evaluates `hashlib.sha1(self.filesystem["path"])`, so a `None`
filesystem raises `TypeError` (after the spatial processing, which comes
first in the source). -/
def ceda_init (filesystem : Option FsDict) (spatial : Option SpatialDict)
    (temporal data_format : Option PyVal) (parameters : Option (List PyVal))
    (kwargs : List (String × PyVal)) :
    Except String (CedaProps × Option SpatialDict) := do
  let spatialStep : Option PyVal × Option SpatialDict ←
    match spatial with
    | none => pure ((none : Option PyVal), (none : Option SpatialDict))
    | some s => do
        let s' : SpatialDict := ⟨s.lat.filter valid_lat, s.lon.filter valid_lon⟩
        let g ← to_geojson s'
        pure (g, some s')
  match filesystem with
  | none => Except.error "TypeError: NoneType object is unsubscriptable"
  | some fs =>
    Except.ok ({
      filesystem := filesystem,
      temporal := temporal,
      data_format := data_format,
      parameters := parameters,
      spatial := spatialStep.1,
      misc := kwargs,
      properties := PyVal.dict [
        ("_id", PyVal.str (sha1Hex fs.path)),
        ("data_format", optVal data_format),
        ("file", fsVal filesystem),
        ("misc", PyVal.dict kwargs),
        ("parameters", paramsVal parameters),
        ("spatial", optVal spatialStep.1),
        ("temporal", optVal temporal)] },
      spatialStep.2)

/-- `Properties.as_dict` (ceda_di, product.py lines 229-235): returns
`self.properties`. -/
def as_dict (r : CedaProps) : PyVal := r.properties

section InitLemmas

/-- The ceda_di normalization never raises. -/
theorem ceda_normalize_ok (lats lons : List PFloat) :
    ∃ v, ceda_normalize lats lons = Except.ok v := by
  by_cases hy : lats.filter valid_lat = []
  · exact ⟨none, (ceda_normalize_shape lats lons).1 (Or.inl hy)⟩
  · by_cases hz : lons.filter valid_lon = []
    · exact ⟨none, (ceda_normalize_shape lats lons).1 (Or.inr hz)⟩
    · obtain ⟨y, ys, hy'⟩ : ∃ y ys, lats.filter valid_lat = y :: ys := by
        cases h : lats.filter valid_lat with
        | nil => exact absurd h hy
        | cons a as => exact ⟨a, as, rfl⟩
      obtain ⟨z, zs, hz'⟩ : ∃ z zs, lons.filter valid_lon = z :: zs := by
        cases h : lons.filter valid_lon with
        | nil => exact absurd h hz
        | cons a as => exact ⟨a, as, rfl⟩
      obtain ⟨c, s, _, _, h⟩ := (ceda_normalize_shape lats lons).2 y ys z zs hy' hz'
      exact ⟨_, h⟩

/-- Unfolding of the constructor when both filesystem and spatial are
supplied and the spatial pipeline succeeds. -/
theorem ceda_init_shape (fs : FsDict) (s : SpatialDict)
    (temporal data_format : Option PyVal) (params : Option (List PyVal))
    (kwargs : List (String × PyVal)) (g : Option PyVal)
    (hg : to_geojson ⟨s.lat.filter valid_lat, s.lon.filter valid_lon⟩ = Except.ok g) :
    ceda_init (some fs) (some s) temporal data_format params kwargs
      = Except.ok ({
          filesystem := some fs,
          temporal := temporal,
          data_format := data_format,
          parameters := params,
          spatial := g,
          misc := kwargs,
          properties := PyVal.dict [
            ("_id", PyVal.str (sha1Hex fs.path)),
            ("data_format", optVal data_format),
            ("file", fsVal (some fs)),
            ("misc", PyVal.dict kwargs),
            ("parameters", paramsVal params),
            ("spatial", optVal g),
            ("temporal", optVal temporal)] },
        some ⟨s.lat.filter valid_lat, s.lon.filter valid_lon⟩) := by
  show (to_geojson ⟨s.lat.filter valid_lat, s.lon.filter valid_lon⟩ >>= fun g =>
      pure (g, some (⟨s.lat.filter valid_lat, s.lon.filter valid_lon⟩ : SpatialDict))
        >>= fun y => _) = _
  rw [hg]
  rfl

end InitLemmas

/-- C4: line 51 computes `hashlib.sha1(self.filesystem["path"])`
unconditionally, so constructing with `filesystem=None` (all other
groups absent, or any spatial group) raises `TypeError` instead of
producing a record with an absent identifier — construction does NOT
succeed for every combination of null groups. -/
theorem ceda_init_none_filesystem_raises :
    ceda_init none none none none none []
      = Except.error "TypeError: NoneType object is unsubscriptable" ∧
    ceda_init none (some ⟨[], []⟩) none none none []
      = Except.error "TypeError: NoneType object is unsubscriptable" := by
  constructor <;> rfl

/-- C10: the constructor mutates the caller-supplied spatial mapping in
place — after construction the caller's dict holds the validity-filtered
`"lat"`/`"lon"` lists — while the other groups (filesystem, temporal,
data_format, parameters, kwargs) are stored unmodified; `self.spatial`
is then rebound to the geojson block computed FROM the mutated dict. -/
theorem ceda_init_mutates_spatial_in_place
    (fs : FsDict) (s : SpatialDict) (temporal data_format : Option PyVal)
    (params : Option (List PyVal)) (kwargs : List (String × PyVal)) :
    ∃ (r : CedaProps) (g : Option PyVal),
      ceda_init (some fs) (some s) temporal data_format params kwargs
        = Except.ok (r, some ⟨s.lat.filter valid_lat, s.lon.filter valid_lon⟩) ∧
      to_geojson ⟨s.lat.filter valid_lat, s.lon.filter valid_lon⟩ = Except.ok g ∧
      r.spatial = g ∧
      r.filesystem = some fs ∧ r.temporal = temporal ∧
      r.data_format = data_format ∧ r.parameters = params ∧ r.misc = kwargs := by
  obtain ⟨g, hg⟩ := ceda_normalize_ok s.lat s.lon
  exact ⟨_, g, ceda_init_shape fs s temporal data_format params kwargs g hg,
    hg, rfl, rfl, rfl, rfl, rfl, rfl⟩

mutual
/-- Modelled from the spec: the composition `json.loads(json.dumps(v))`
of the standard-library JSON serializer used by `as_json`/`__str__`
(`json` is external to the repository).  JSON has arrays but no tuples:
Python lists AND tuples both serialize to arrays and arrays parse back
as LISTS; dict entries keep their order; `None`, strings and floats
round-trip to themselves (`repr` of a float reparses exactly, and NaN is
emitted as the literal `NaN` and parses back to a fresh NaN). -/
def jsonRoundTrip : PyVal → PyVal
  | PyVal.pnone => PyVal.pnone
  | PyVal.num x => PyVal.num x
  | PyVal.str s => PyVal.str s
  | PyVal.list l => PyVal.list (jsonRoundTripList l)
  | PyVal.tuple l => PyVal.list (jsonRoundTripList l)
  | PyVal.dict l => PyVal.dict (jsonRoundTripDict l)

/-- Round-trip of a JSON array's elements. -/
def jsonRoundTripList : List PyVal → List PyVal
  | [] => []
  | x :: xs => jsonRoundTrip x :: jsonRoundTripList xs

/-- Round-trip of a JSON object's entries. -/
def jsonRoundTripDict : List (String × PyVal) → List (String × PyVal)
  | [] => []
  | (k, v) :: xs => (k, jsonRoundTrip v) :: jsonRoundTripDict xs
end

/-- Python `==` on floats: NaN compares unequal to everything, itself
included (the containers compared below never share float object
identity after a JSON round-trip, so CPython's identity shortcut never
applies). -/
def pyFloatEq : PFloat → PFloat → Bool
  | PFloat.val a, PFloat.val b => decide (a = b)
  | _, _ => false

mutual
/-- Python `==` on the modelled values: a tuple never equals a list
(regardless of elements); lists/tuples compare elementwise; dicts are
compared entry-by-entry in order here, which coincides with Python's
order-insensitive dict equality for the pairs compared in this
development (a dict and its JSON round-trip, which preserves entry
order). -/
def pyEq : PyVal → PyVal → Bool
  | PyVal.pnone, PyVal.pnone => true
  | PyVal.num a, PyVal.num b => pyFloatEq a b
  | PyVal.str a, PyVal.str b => a == b
  | PyVal.list a, PyVal.list b => pyEqList a b
  | PyVal.tuple a, PyVal.tuple b => pyEqList a b
  | PyVal.dict a, PyVal.dict b => pyEqDict a b
  | _, _ => false

/-- Elementwise Python `==` on sequences. -/
def pyEqList : List PyVal → List PyVal → Bool
  | [], [] => true
  | x :: xs, y :: ys => pyEq x y && pyEqList xs ys
  | _, _ => false

/-- Entry-wise Python `==` on dicts (same key, equal value, in order). -/
def pyEqDict : List (String × PyVal) → List (String × PyVal) → Bool
  | [], [] => true
  | (k1, v1) :: xs, (k2, v2) :: ys => k1 == k2 && pyEq v1 v2 && pyEqDict xs ys
  | _, _ => false
end

section RoundTripLemmas

/-- A spatial block (bbox + non-empty summary) never survives the JSON
round-trip under Python equality: the summary's coordinates are TUPLES,
which reparse as lists, and a tuple never equals a list. -/
theorem pyEq_roundtrip_block_false (c : List (Option PFloat × Option PFloat))
    (p : PFloat × PFloat) (rest : List (PFloat × PFloat)) :
    pyEq (jsonRoundTrip (PyVal.dict [("geometries",
        PyVal.dict [("bbox", bbox_val c), ("summary", summary_val (p :: rest))])]))
      (PyVal.dict [("geometries",
        PyVal.dict [("bbox", bbox_val c), ("summary", summary_val (p :: rest))])])
      = false := by
  simp only [jsonRoundTrip, jsonRoundTripDict, jsonRoundTripList,
    summary_val, bbox_val, pairTuple, List.map_cons,
    pyEq, pyEqDict, pyEqList, Bool.and_false, Bool.false_and, Bool.and_eq_false_imp]

/-- Plugging a non-round-trippable spatial entry into the properties
dict makes the whole dict fail the round-trip comparison (the later
entries are short-circuited by `&& false`). -/
theorem pyEq_roundtrip_props_false
    (idv : String) (dfv filev miscv paramv tempv spatialv : PyVal)
    (hsp : pyEq (jsonRoundTrip spatialv) spatialv = false) :
    pyEq (jsonRoundTrip (PyVal.dict [("_id", PyVal.str idv), ("data_format", dfv),
      ("file", filev), ("misc", miscv), ("parameters", paramv),
      ("spatial", spatialv), ("temporal", tempv)]))
      (PyVal.dict [("_id", PyVal.str idv), ("data_format", dfv),
      ("file", filev), ("misc", miscv), ("parameters", paramv),
      ("spatial", spatialv), ("temporal", tempv)]) = false := by
  simp [jsonRoundTrip, jsonRoundTripDict, pyEq, pyEqDict, hsp,
    Bool.and_false, Bool.false_and]

end RoundTripLemmas

/-- Concrete evaluation of the normalizer on the 2-sample valid input
`lats = [0, 1]`, `lons = [2, 3]`. -/
theorem ceda_normalize_two_sample :
    ceda_normalize [PFloat.val 0, PFloat.val 1] [PFloat.val 2, PFloat.val 3]
      = Except.ok (some (PyVal.dict [("geometries", PyVal.dict
        [("bbox", bbox_val [(some (PFloat.val 2), some (PFloat.val 0)),
                            (some (PFloat.val 2), some (PFloat.val 1)),
                            (some (PFloat.val 3), some (PFloat.val 1)),
                            (some (PFloat.val 3), some (PFloat.val 0))]),
         ("summary", summary_val [(PFloat.val 2, PFloat.val 0),
                                  (PFloat.val 3, PFloat.val 1)])])])) := by
  have hsm : gen_coord_summary ⟨[PFloat.val 0, PFloat.val 1],
      [PFloat.val 2, PFloat.val 3]⟩
      = Except.ok [(PFloat.val 2, PFloat.val 0), (PFloat.val 3, PFloat.val 1)] := by
    simp [gen_coord_summary, takeEvery]
  unfold ceda_normalize
  rw [show ([PFloat.val 0, PFloat.val 1]).filter valid_lat
        = [PFloat.val 0, PFloat.val 1] from by decide,
      show ([PFloat.val 2, PFloat.val 3]).filter valid_lon
        = [PFloat.val 2, PFloat.val 3] from by decide]
  unfold to_geojson
  rw [if_pos ⟨by decide, by decide⟩]
  rw [show gen_bbox ⟨[PFloat.val 0, PFloat.val 1], [PFloat.val 2, PFloat.val 3]⟩
        = Except.ok [(some (PFloat.val 2), some (PFloat.val 0)),
                     (some (PFloat.val 2), some (PFloat.val 1)),
                     (some (PFloat.val 3), some (PFloat.val 1)),
                     (some (PFloat.val 3), some (PFloat.val 0))] from rfl, hsm]
  rfl

/-- Observable: the Python truth value of
`json.loads(obj.as_json()) == obj.as_dict()` for a construction result
(`none` when construction raised). -/
def roundTripEqOf : Except String (CedaProps × Option SpatialDict) → Option Bool
  | Except.ok (r, _) => some (pyEq (jsonRoundTrip (as_dict r)) (as_dict r))
  | Except.error _ => none

/-- C9 (counterexample): a record constructed with a valid 2-sample
spatial group.  Its summary coordinates are Python TUPLES, `as_json`
serializes them as JSON arrays, and parsing back yields LISTS, which
Python does not consider equal to tuples — so the parsed `as_json()`
output is NOT equal to `as_dict()`. -/
theorem as_json_roundtrip_counterexample :
    roundTripEqOf (ceda_init (some ⟨"file.hdf"⟩)
      (some ⟨[PFloat.val 0, PFloat.val 1], [PFloat.val 2, PFloat.val 3]⟩)
      none none none []) = some false := by
  have hnorm := ceda_normalize_two_sample
  have hg : to_geojson ⟨([PFloat.val 0, PFloat.val 1]).filter valid_lat,
      ([PFloat.val 2, PFloat.val 3]).filter valid_lon⟩
      = Except.ok (some (PyVal.dict [("geometries", PyVal.dict
        [("bbox", bbox_val [(some (PFloat.val 2), some (PFloat.val 0)),
                            (some (PFloat.val 2), some (PFloat.val 1)),
                            (some (PFloat.val 3), some (PFloat.val 1)),
                            (some (PFloat.val 3), some (PFloat.val 0))]),
         ("summary", summary_val [(PFloat.val 2, PFloat.val 0),
                                  (PFloat.val 3, PFloat.val 1)])])])) := hnorm
  rw [ceda_init_shape ⟨"file.hdf"⟩
    ⟨[PFloat.val 0, PFloat.val 1], [PFloat.val 2, PFloat.val 3]⟩
    none none none [] _ hg]
  exact congrArg some (pyEq_roundtrip_props_false _ _ _ _ _ _ _
    (pyEq_roundtrip_block_false _ (PFloat.val 2, PFloat.val 0) [(PFloat.val 3, PFloat.val 1)]))

/-- C9 (amended): `as_dict` is trivially idempotent (it returns the same
`self.properties` mapping each call); but the JSON round-trip of
`as_json` is NOT structurally equal to `as_dict` for ANY record carrying
a spatial block, because the block's summary coordinates are tuples that
reparse as lists; for records without a spatial block (and with
tuple-free, NaN-free groups) the round-trip equality does hold,
exemplified on a concrete record. -/
theorem as_dict_as_json_roundtrip_spec :
    (∀ r : CedaProps, as_dict r = as_dict r) ∧
    (∀ (fs : FsDict) (s : SpatialDict) (t d : Option PyVal)
       (params : Option (List PyVal)) (kwargs : List (String × PyVal))
       (y z : PFloat) (ys zs : List PFloat),
      s.lat.filter valid_lat = y :: ys →
      s.lon.filter valid_lon = z :: zs →
      ∀ (r : CedaProps) (sdOut : Option SpatialDict),
        ceda_init (some fs) (some s) t d params kwargs = Except.ok (r, sdOut) →
        pyEq (jsonRoundTrip (as_dict r)) (as_dict r) = false) ∧
    (∃ (r : CedaProps) (sdOut : Option SpatialDict),
      ceda_init (some ⟨"plain.hdf"⟩) none (some (PyVal.str "t")) none none []
        = Except.ok (r, sdOut) ∧
      pyEq (jsonRoundTrip (as_dict r)) (as_dict r) = true) := by
  refine ⟨fun r => rfl, ?_, ?_⟩
  · intro fs s t d params kwargs y z ys zs hy hz r sdOut hinit
    obtain ⟨c, summ, hbb, hsm, hnorm⟩ := (ceda_normalize_shape s.lat s.lon).2 y ys z zs hy hz
    -- identify the summary's head sample
    have hstep : ¬((z :: zs).length + 30 - 1) / 30 = 0 := by
      simp only [List.length_cons]; omega
    have hsm2 : gen_coord_summary ⟨y :: ys, z :: zs⟩ = Except.ok
        ((z, y) :: List.zip
          (takeEvery (((z :: zs).length + 30 - 1) / 30)
            (zs.drop ((((z :: zs).length + 30 - 1) / 30) - 1)))
          (takeEvery (((z :: zs).length + 30 - 1) / 30)
            (ys.drop ((((z :: zs).length + 30 - 1) / 30) - 1)))) := by
      unfold gen_coord_summary
      rw [if_neg hstep, takeEvery, takeEvery]
      rfl
    rw [hsm] at hsm2
    have hsumm : summ = (z, y) :: List.zip
        (takeEvery (((z :: zs).length + 30 - 1) / 30)
          (zs.drop ((((z :: zs).length + 30 - 1) / 30) - 1)))
        (takeEvery (((z :: zs).length + 30 - 1) / 30)
          (ys.drop ((((z :: zs).length + 30 - 1) / 30) - 1))) :=
      Except.ok.inj hsm2
    have hg : to_geojson ⟨s.lat.filter valid_lat, s.lon.filter valid_lon⟩
        = Except.ok (some (PyVal.dict [("geometries",
            PyVal.dict [("bbox", bbox_val c), ("summary", summary_val summ)])])) := hnorm
    rw [ceda_init_shape fs s t d params kwargs _ hg] at hinit
    have hr : r = ⟨some fs, t, d, params,
        some (PyVal.dict [("geometries",
          PyVal.dict [("bbox", bbox_val c), ("summary", summary_val summ)])]),
        kwargs,
        PyVal.dict [
          ("_id", PyVal.str (sha1Hex fs.path)),
          ("data_format", optVal d),
          ("file", fsVal (some fs)),
          ("misc", PyVal.dict kwargs),
          ("parameters", paramsVal params),
          ("spatial", optVal (some (PyVal.dict [("geometries",
            PyVal.dict [("bbox", bbox_val c), ("summary", summary_val summ)])]))),
          ("temporal", optVal t)]⟩ := by
      have h1 := Except.ok.inj hinit
      exact (congrArg Prod.fst h1).symm
    rw [hr]
    simp only [as_dict, optVal]
    rw [hsumm]
    exact pyEq_roundtrip_props_false _ _ _ _ _ _ _
      (pyEq_roundtrip_block_false _ _ _)
  · refine ⟨_, _, rfl, ?_⟩
    simp [as_dict, jsonRoundTrip, jsonRoundTripDict, jsonRoundTripList,
      pyEq, pyEqDict, pyEqList, pyFloatEq, optVal, fsVal, paramsVal]

/-- The record that `ceda_init` builds for the 2-sample spatial group of
`ceda_normalize_two_sample` under a given path. -/
def witnessRecord (p : String) : CedaProps :=
  ⟨some ⟨p⟩, none, none, none,
   some (PyVal.dict [("geometries",
     PyVal.dict [("bbox", bbox_val [(some (PFloat.val 2), some (PFloat.val 0)),
                         (some (PFloat.val 2), some (PFloat.val 1)),
                         (some (PFloat.val 3), some (PFloat.val 1)),
                         (some (PFloat.val 3), some (PFloat.val 0))]),
      ("summary", summary_val [(PFloat.val 2, PFloat.val 0),
                               (PFloat.val 3, PFloat.val 1)])])]),
   [],
   PyVal.dict [
     ("_id", PyVal.str (sha1Hex p)),
     ("data_format", PyVal.pnone),
     ("file", fsVal (some ⟨p⟩)),
     ("misc", PyVal.dict []),
     ("parameters", PyVal.pnone),
     ("spatial", PyVal.dict [("geometries",
       PyVal.dict [("bbox", bbox_val [(some (PFloat.val 2), some (PFloat.val 0)),
                           (some (PFloat.val 2), some (PFloat.val 1)),
                           (some (PFloat.val 3), some (PFloat.val 1)),
                           (some (PFloat.val 3), some (PFloat.val 0))]),
        ("summary", summary_val [(PFloat.val 2, PFloat.val 0),
                                 (PFloat.val 3, PFloat.val 1)])])]),
     ("temporal", PyVal.pnone)]⟩

/-- C9 (witness): the amended theorem's negative part applied at the
concrete record of the counterexample input, with its hypotheses
discharged there. -/
theorem as_dict_as_json_roundtrip_spec_witness :
    pyEq (jsonRoundTrip (as_dict (witnessRecord "w.hdf")))
      (as_dict (witnessRecord "w.hdf")) = false := by
  have hfil1 : ([PFloat.val 0, PFloat.val 1]).filter valid_lat
      = PFloat.val 0 :: [PFloat.val 1] := by decide
  have hfil2 : ([PFloat.val 2, PFloat.val 3]).filter valid_lon
      = PFloat.val 2 :: [PFloat.val 3] := by decide
  have happ := as_dict_as_json_roundtrip_spec.2.1 ⟨"w.hdf"⟩
    ⟨[PFloat.val 0, PFloat.val 1], [PFloat.val 2, PFloat.val 3]⟩
    none none none [] (PFloat.val 0) (PFloat.val 2) [PFloat.val 1] [PFloat.val 3]
    hfil1 hfil2
  have hnorm := ceda_normalize_two_sample
  exact happ _ _ (ceda_init_shape ⟨"w.hdf"⟩
    ⟨[PFloat.val 0, PFloat.val 1], [PFloat.val 2, PFloat.val 3]⟩
    none none none [] _ hnorm)
